import Mathlib

/-!
Shallow embedding of the Layer-2 Ethernet learning switch simulator
(src/Switch.h, src/Switch.cpp, src/Frame.h).

Modelling choices, each tied to the source:

* A MAC table entry (struct MACTableEntry, Switch.h lines 27-33) holds a
  port (C++ int, modelled as Int) and a timestamp.  The C++ timestamp is a
  std::chrono::steady_clock::time_point written by an INTERNAL call to
  steady_clock::now(); the embedding makes every such internal clock read
  explicit as a `now : Int` argument (seconds), so that the dependence of
  the code on the hidden clock can be stated and proved.
* The table std::unordered_map<std::string, MACTableEntry> is modelled as an
  association list; emplace of an absent key prepends, and the in-place
  mutation of a found entry rewrites the first pair with that key.  Keys
  stay distinct because insertion happens only after a failed find.
* processFrame returns no value in C++ (it prints); the branch taken in the
  forwarding phase is reified as a `Decision`, and the list of ports printed
  by the flooding loop (for i = 1..numPorts, skip incomingPort) is reified
  as `floodPorts`.
* The counters are C++ ints starting at 0 and only incremented; they are
  modelled as Nat.
-/

namespace SwitchSim

/-- Entry of the MAC address table: port where the MAC was learned and the
last-seen time (Switch.h lines 27-33).  The time unit is seconds, matching
the duration_cast<seconds> comparison in cleanupTable. -/
structure MACTableEntry where
  port : Int
  timestamp : Int
deriving DecidableEq, Repr

/-- The MAC address table, std::unordered_map<std::string, MACTableEntry>
modelled as an association list with distinct keys. -/
abbrev MACTable := List (String × MACTableEntry)

/-- Lookup of macTable.find(mac): the first pair whose key is mac. -/
def findEntry : MACTable → String → Option MACTableEntry
  | [], _ => none
  | (k, v) :: t, mac => if k = mac then some v else findEntry t mac

/-- In-place mutation of the entry found by macTable.find: the first pair
with the given key is replaced, every other pair is untouched. -/
def updateEntry : MACTable → String → MACTableEntry → MACTable
  | [], _, _ => []
  | (k, v) :: t, mac, e => if k = mac then (k, e) :: t else (k, v) :: updateEntry t mac e

/-- Learning phase of Switch::processFrame (Switch.cpp lines 38-59): an
absent source MAC is inserted with the incoming port and the current time;
a present one has its port set to the incoming port and its timestamp
refreshed (the same-port branch changes only the timestamp, and there the
stored port already equals the incoming port, so both present branches
leave the entry at (inPort, now)). -/
def learn (t : MACTable) (mac : String) (port now : Int) : MACTable :=
  match findEntry t mac with
  | none => (mac, ⟨port, now⟩) :: t
  | some _ => updateEntry t mac ⟨port, now⟩

/-- Classification of the three learning branches of Switch.cpp lines 40-59. -/
inductive LearnOutcome where
  | New : LearnOutcome
  | Refreshed : LearnOutcome
  | Moved : Int → LearnOutcome
deriving DecidableEq, Repr

/-- Which learning branch Switch.cpp lines 40-59 takes for a given table,
source MAC and incoming port. -/
def learnOutcome (t : MACTable) (mac : String) (port : Int) : LearnOutcome :=
  match findEntry t mac with
  | none => .New
  | some e => if e.port = port then .Refreshed else .Moved e.port

/-- Port view of the table, the lookup(address) of the spec. -/
def lookupPort (t : MACTable) (mac : String) : Option Int :=
  (findEntry t mac).map (fun e => e.port)

/-- The broadcast string compared against destMAC in Switch.cpp line 65. -/
def BROADCAST : String := "FF:FF:FF:FF:FF:FF"

/-- Outcome of the forwarding phase of Switch::processFrame: which of the
print-and-count branches ran (Switch.cpp lines 61-109). -/
inductive Decision where
  | Deliver : Int → Decision
  | Flood : Int → Decision
  | Drop : Decision
deriving DecidableEq, Repr

/-- Whole state of a Switch object (Switch.h lines 36-51). -/
structure SwitchState where
  macTable : MACTable
  numPorts : Int
  agingTimeout : Int
  currentCycle : Int
  framesProcessed : Nat
  learningEvents : Nat
  forwardingEvents : Nat
  floodingEvents : Nat
deriving DecidableEq, Repr

/-- The Switch constructor (Switch.cpp lines 14-25): empty table, counters
at zero. -/
def initSwitch (ports timeout : Int) : SwitchState :=
  { macTable := []
    numPorts := ports
    agingTimeout := timeout
    currentCycle := 0
    framesProcessed := 0
    learningEvents := 0
    forwardingEvents := 0
    floodingEvents := 0 }

/-- Ports printed by the flooding loop of Switch.cpp lines 72-76 and
102-106: i from 1 to numPorts, skipping the incoming port, in loop order. -/
def floodPorts (numPorts inPort : Int) : List Int :=
  ((List.range numPorts.toNat).map (fun (i : Nat) => (i : Int) + 1)).filter
    (fun p => p ≠ inPort)

/-- Learning phase as a state transformer: the table is updated by `learn`
and learningEvents is incremented exactly in the branch that inserts a new
entry (Switch.cpp lines 40-59: learningEvents++ appears only in the
absent-key branch). -/
def learnStep (s : SwitchState) (sourceMAC : String) (inPort now : Int) : SwitchState :=
  { s with
    macTable := learn s.macTable sourceMAC inPort now
    learningEvents :=
      if findEntry s.macTable sourceMAC = none then s.learningEvents + 1
      else s.learningEvents }

/-- Forwarding phase (Switch.cpp lines 61-109): broadcast floods; otherwise
the destination is looked up in the (already updated) table; found on the
incoming port drops, found elsewhere delivers and counts a forwarding
event, not found floods and counts a flooding event. -/
def forwardStep (s : SwitchState) (destMAC : String) (inPort : Int) :
    Decision × SwitchState :=
  if destMAC = BROADCAST then
    (Decision.Flood inPort, { s with floodingEvents := s.floodingEvents + 1 })
  else
    match findEntry s.macTable destMAC with
    | some e =>
      if e.port = inPort then
        (Decision.Drop, s)
      else
        (Decision.Deliver e.port, { s with forwardingEvents := s.forwardingEvents + 1 })
    | none =>
      (Decision.Flood inPort, { s with floodingEvents := s.floodingEvents + 1 })

/-- Switch::processFrame(sourceMAC, destMAC, incomingPort) (Switch.cpp
lines 31-112): framesProcessed++ first, then the learning phase, then the
forwarding decision.  The C++ function takes no time argument; the `now`
parameter stands for the value of the internal steady_clock::now() reads
performed during the learning phase. -/
def processFrame (s : SwitchState) (sourceMAC destMAC : String) (inPort now : Int) :
    Decision × SwitchState :=
  forwardStep
    (learnStep { s with framesProcessed := s.framesProcessed + 1 } sourceMAC inPort now)
    destMAC inPort

/-- Frame struct of Frame.h lines 15-32. -/
structure Frame where
  sourceMAC : String
  destMAC : String
  etherType : String
  payload : String
deriving DecidableEq, Repr

/-- Switch::processFrame(const Frame&, int) (Switch.cpp lines 27-29):
delegates to the string overload with the frame source and destination. -/
def processFrameF (s : SwitchState) (f : Frame) (inPort now : Int) :
    Decision × SwitchState :=
  processFrame s f.sourceMAC f.destMAC inPort now

/-- Switch::cleanupTable (Switch.cpp lines 114-139): a no-op when the aging
timeout is not positive; otherwise every entry whose age now - timestamp
exceeds the timeout is erased and all others kept.  The C++ function reads
steady_clock::now() internally; `now` stands for that read. -/
def cleanupTable (s : SwitchState) (now : Int) : SwitchState :=
  if s.agingTimeout ≤ 0 then s
  else
    { s with
      macTable := s.macTable.filter (fun p => ¬ now - p.2.timestamp > s.agingTimeout) }

/-- Switch::clearMACTable (Switch.cpp lines 188-191). -/
def clearMACTable (s : SwitchState) : SwitchState :=
  { s with macTable := [] }

/-- Switch::isLearned (Switch.cpp lines 197-199). -/
def isLearned (s : SwitchState) (mac : String) : Bool :=
  (findEntry s.macTable mac).isSome

/-! Helper lemmas about the table operations. -/

/-- Updating a present key makes its entry the new one. -/
theorem findEntry_updateEntry_self (t : MACTable) (mac : String) (e e₀ : MACTableEntry)
    (h : findEntry t mac = some e₀) :
    findEntry (updateEntry t mac e) mac = some e := by
  induction t with
  | nil => simp [findEntry] at h
  | cons p t ih =>
    obtain ⟨k, v⟩ := p
    by_cases hk : k = mac
    · simp [updateEntry, findEntry, hk]
    · simp only [findEntry, if_neg hk] at h
      simp [updateEntry, findEntry, hk, ih h]

/-- Updating one key leaves the lookup of every other key unchanged. -/
theorem findEntry_updateEntry_ne (t : MACTable) (mac mac₂ : String) (e : MACTableEntry)
    (h : mac₂ ≠ mac) :
    findEntry (updateEntry t mac e) mac₂ = findEntry t mac₂ := by
  induction t with
  | nil => rfl
  | cons p t ih =>
    obtain ⟨k, v⟩ := p
    by_cases hk : k = mac
    · subst hk
      have hk₂ : ¬ k = mac₂ := fun hh => h hh.symm
      simp [updateEntry, findEntry, hk₂]
    · by_cases hk₂ : k = mac₂
      · simp [updateEntry, findEntry, hk, hk₂, h]
      · simp [updateEntry, findEntry, hk, hk₂, ih]

/-- After learning, the learned source is mapped to the incoming port and
the supplied time. -/
theorem learn_findEntry_self (t : MACTable) (mac : String) (port now : Int) :
    findEntry (learn t mac port now) mac = some ⟨port, now⟩ := by
  unfold learn
  cases h : findEntry t mac with
  | none => simp [findEntry]
  | some e => exact findEntry_updateEntry_self t mac ⟨port, now⟩ e h

/-- Learning one source address leaves every other key unchanged. -/
theorem learn_findEntry_ne (t : MACTable) (mac mac₂ : String) (port now : Int)
    (h : mac₂ ≠ mac) :
    findEntry (learn t mac port now) mac₂ = findEntry t mac₂ := by
  unfold learn
  cases hf : findEntry t mac with
  | none =>
    have hne : ¬ mac = mac₂ := fun hh => h hh.symm
    simp [findEntry, hne]
  | some e => exact findEntry_updateEntry_ne t mac mac₂ ⟨port, now⟩ h

/-- The table after processFrame is the table after the learning phase; the
forwarding phase never touches it. -/
theorem processFrame_table (s : SwitchState) (src dest : String) (inPort now : Int) :
    (processFrame s src dest inPort now).2.macTable = learn s.macTable src inPort now := by
  unfold processFrame forwardStep learnStep
  by_cases hb : dest = BROADCAST
  · simp [hb]
  · simp only [if_neg hb]
    cases hf : findEntry (learn s.macTable src inPort now) dest with
    | none => simp [hf]
    | some e =>
      by_cases hp : e.port = inPort
      · simp [hf, hp]
      · simp [hf, hp]

/-- The port stored for any key after learning does not depend on the time
at which the learning happened. -/
theorem learn_lookupPort_time (t : MACTable) (mac : String) (port n₁ n₂ : Int)
    (x : String) :
    lookupPort (learn t mac port n₁) x = lookupPort (learn t mac port n₂) x := by
  by_cases hx : x = mac
  · subst hx
    simp [lookupPort, learn_findEntry_self]
  · simp [lookupPort, learn_findEntry_ne _ _ _ _ _ hx]

/-- Every processFrame call increments framesProcessed by exactly one. -/
theorem processFrame_framesProcessed (s : SwitchState) (src dest : String)
    (inPort now : Int) :
    (processFrame s src dest inPort now).2.framesProcessed = s.framesProcessed + 1 := by
  unfold processFrame forwardStep learnStep
  by_cases hb : dest = BROADCAST
  · simp [hb]
  · simp only [if_neg hb]
    cases hf : findEntry (learn s.macTable src inPort now) dest with
    | none => simp [hf]
    | some e =>
      by_cases hp : e.port = inPort
      · simp [hf, hp]
      · simp [hf, hp]

/-- learningEvents is incremented exactly when the source was absent from
the table before the call (the branch Switch.cpp lines 41-46). -/
theorem processFrame_learningEvents (s : SwitchState) (src dest : String)
    (inPort now : Int) :
    (processFrame s src dest inPort now).2.learningEvents =
      if findEntry s.macTable src = none then s.learningEvents + 1
      else s.learningEvents := by
  unfold processFrame forwardStep learnStep
  by_cases hb : dest = BROADCAST
  · simp [hb]
  · simp only [if_neg hb]
    cases hf : findEntry (learn s.macTable src inPort now) dest with
    | none => simp [hf]
    | some e =>
      by_cases hp : e.port = inPort
      · simp [hf, hp]
      · simp [hf, hp]

/-! Claim theorems. -/

/-- C1: the forwarding decision is Flood(excludePort = inPort) exactly when
the destination is the broadcast address or is absent from the address
table at lookup time (after the learning step of the same call); the
broadcast case floods whatever the table holds, and the flooded port list
is the ascending enumeration of [1, numPorts] with the incoming port
removed. -/
theorem C1_flood_iff (s : SwitchState) (src dest : String) (inPort now : Int) :
    ((processFrame s src dest inPort now).1 = Decision.Flood inPort ↔
      dest = BROADCAST ∨ findEntry (learn s.macTable src inPort now) dest = none)
    ∧ (∀ p : Int,
        p ∈ floodPorts s.numPorts inPort ↔ 1 ≤ p ∧ p ≤ s.numPorts ∧ p ≠ inPort)
    ∧ (floodPorts s.numPorts inPort).Sorted (· < ·) := by
  refine ⟨?_, ?_, ?_⟩
  · by_cases hb : dest = BROADCAST
    · simp [processFrame, forwardStep, learnStep, hb]
    · cases hf : findEntry (learn s.macTable src inPort now) dest with
      | none => simp [processFrame, forwardStep, learnStep, hb, hf]
      | some e =>
        by_cases hp : e.port = inPort
        · simp [processFrame, forwardStep, learnStep, hb, hf, hp]
        · simp [processFrame, forwardStep, learnStep, hb, hf, hp]
  · intro p
    unfold floodPorts
    rw [List.mem_filter, List.mem_map]
    constructor
    · rintro ⟨⟨a, ha, rfl⟩, hp⟩
      rw [List.mem_range] at ha
      have hp₂ : (a : Int) + 1 ≠ inPort := by simpa using hp
      refine ⟨by omega, by omega, hp₂⟩
    · rintro ⟨h₁, h₂, h₃⟩
      refine ⟨⟨(p - 1).toNat, ?_, ?_⟩, by simpa using h₃⟩
      · rw [List.mem_range]; omega
      · omega
  · unfold floodPorts
    show List.Pairwise _ _
    apply List.Pairwise.sublist (List.filter_sublist _)
    exact List.Pairwise.map _ (fun a b h => by omega) (List.sorted_lt_range _)

/-- C2: a non-broadcast destination that the table (after the learning
step of the same call) maps to port p is dropped without a forwarding
event when p equals the incoming port, and delivered to p with exactly one
forwarding event otherwise. -/
theorem C2_known_unicast (s : SwitchState) (src dest : String) (inPort now p : Int)
    (hb : dest ≠ BROADCAST)
    (hl : lookupPort (learn s.macTable src inPort now) dest = some p) :
    (p = inPort →
      (processFrame s src dest inPort now).1 = Decision.Drop
      ∧ (processFrame s src dest inPort now).2.forwardingEvents = s.forwardingEvents)
    ∧ (p ≠ inPort →
      (processFrame s src dest inPort now).1 = Decision.Deliver p
      ∧ (processFrame s src dest inPort now).2.forwardingEvents
          = s.forwardingEvents + 1) := by
  obtain ⟨e, he, hep⟩ :
      ∃ e, findEntry (learn s.macTable src inPort now) dest = some e ∧ e.port = p := by
    unfold lookupPort at hl
    cases hfe : findEntry (learn s.macTable src inPort now) dest with
    | none => simp [hfe] at hl
    | some e => exact ⟨e, rfl, by simpa [hfe] using hl⟩
  subst hep
  constructor
  · intro hp
    constructor <;> simp [processFrame, forwardStep, learnStep, hb, he, hp]
  · intro hp
    constructor <;> simp [processFrame, forwardStep, learnStep, hb, he, hp]

/-- Witness for C2 at concrete inputs: with BB stored at port 2, a frame
AA to BB arriving on port 1 is delivered to 2 with one forwarding event,
and the same frame arriving on port 2 is dropped with none. -/
theorem C2_known_unicast_witness :
    ((processFrame { initSwitch 8 300 with macTable := [("BB", ⟨2, 0⟩)] }
        "AA" "BB" 1 5).1 = Decision.Deliver 2
      ∧ (processFrame { initSwitch 8 300 with macTable := [("BB", ⟨2, 0⟩)] }
          "AA" "BB" 1 5).2.forwardingEvents = 1)
    ∧ ((processFrame { initSwitch 8 300 with macTable := [("BB", ⟨2, 0⟩)] }
        "AA" "BB" 2 5).1 = Decision.Drop
      ∧ (processFrame { initSwitch 8 300 with macTable := [("BB", ⟨2, 0⟩)] }
          "AA" "BB" 2 5).2.forwardingEvents = 0) := by
  constructor
  · exact (C2_known_unicast { initSwitch 8 300 with macTable := [("BB", ⟨2, 0⟩)] }
      "AA" "BB" 1 5 2 (by decide) (by decide)).2 (by decide)
  · exact (C2_known_unicast { initSwitch 8 300 with macTable := [("BB", ⟨2, 0⟩)] }
      "AA" "BB" 2 5 2 (by decide) (by decide)).1 rfl

/-- C3: learning happens before the forwarding decision: after any call
the table maps the frame source to the incoming port, and on the concrete
scenario from an empty table the call floods with the incoming port
excluded while the source has been learned in the same call. -/
theorem C3_learn_before_decide :
    (∀ (s : SwitchState) (src dest : String) (inPort now : Int),
      lookupPort (processFrame s src dest inPort now).2.macTable src = some inPort)
    ∧ (processFrame (initSwitch 8 300) "AA" "CC" 1 0).1 = Decision.Flood 1
    ∧ lookupPort (processFrame (initSwitch 8 300) "AA" "CC" 1 0).2.macTable "AA"
        = some 1 := by
  refine ⟨?_, by decide, by decide⟩
  intro s src dest inPort now
  rw [processFrame_table]
  simp [lookupPort, learn_findEntry_self]

/-- C4: cleanupTable is a no-op when the configured timeout is not
positive, and otherwise keeps exactly the entries whose age now - lastSeen
is at most the timeout: the boundary age == timeout survives, strictly
older entries are removed, younger entries are untouched. -/
theorem C4_cleanup_evicts_iff (s : SwitchState) (now : Int) :
    (s.agingTimeout ≤ 0 → cleanupTable s now = s)
    ∧ (0 < s.agingTimeout →
        ∀ (mac : String) (e : MACTableEntry),
          (mac, e) ∈ (cleanupTable s now).macTable ↔
            (mac, e) ∈ s.macTable ∧ now - e.timestamp ≤ s.agingTimeout) := by
  constructor
  · intro h
    simp [cleanupTable, h]
  · intro h mac e
    rw [cleanupTable, if_neg (by omega)]
    simp only [List.mem_filter, decide_eq_true_eq]
    constructor
    · rintro ⟨hm, hp⟩
      exact ⟨hm, by omega⟩
    · rintro ⟨hm, hp⟩
      exact ⟨hm, by simpa using (by omega : ¬ now - e.timestamp > s.agingTimeout)⟩

/-- C5 counterexample: a call with inPort = 0, outside [1, 8], does not
fail: it inserts the source into the table at port 0, so the table is
modified, refuting both the InvalidPort failure and the unmodified table. -/
theorem C5_counterexample :
    lookupPort (processFrame (initSwitch 8 300) "AA" "BB" 0 7).2.macTable "AA" = some 0
    ∧ (processFrame (initSwitch 8 300) "AA" "BB" 0 7).2.macTable
        ≠ (initSwitch 8 300).macTable := by
  constructor
  · decide
  · decide

/-- C5 amended: processFrame performs no validation of the incoming port:
even for inPort outside [1, numPorts] the call completes normally, counts
the frame, and learns the source at that out-of-range port. -/
theorem C5_no_port_validation (s : SwitchState) (src dest : String) (inPort now : Int)
    (h : inPort < 1 ∨ s.numPorts < inPort) :
    findEntry (processFrame s src dest inPort now).2.macTable src = some ⟨inPort, now⟩
    ∧ (processFrame s src dest inPort now).2.framesProcessed
        = s.framesProcessed + 1 := by
  constructor
  · rw [processFrame_table]
    exact learn_findEntry_self _ _ _ _
  · exact processFrame_framesProcessed _ _ _ _ _

/-- Witness for C5 amended: the out-of-range port 0 on an 8-port switch. -/
theorem C5_no_port_validation_witness :
    findEntry (processFrame (initSwitch 8 300) "AA" "BB" 0 7).2.macTable "AA"
      = some ⟨0, 7⟩
    ∧ (processFrame (initSwitch 8 300) "AA" "BB" 0 7).2.framesProcessed
        = (initSwitch 8 300).framesProcessed + 1 :=
  C5_no_port_validation (initSwitch 8 300) "AA" "BB" 0 7 (Or.inl (by decide))

/-- C6 counterexample: after AA is learned at port 1, the same source
arriving on port 2 is a Moved outcome, yet learningEvents stays at its old
value, refuting the claim that Moved increments it. -/
theorem C6_counterexample :
    learnOutcome (processFrame (initSwitch 8 300) "AA" "BB" 1 0).2.macTable "AA" 2
      = LearnOutcome.Moved 1
    ∧ (processFrame (processFrame (initSwitch 8 300) "AA" "BB" 1 0).2
        "AA" "BB" 2 1).2.learningEvents
      = (processFrame (initSwitch 8 300) "AA" "BB" 1 0).2.learningEvents := by
  constructor
  · decide
  · decide

/-- C6 amended: framesProcessed grows by exactly one on every call, and
learningEvents grows exactly when the learn outcome is New (source absent
before the call); Moved and Refreshed outcomes leave it unchanged. -/
theorem C6_stats_increments (s : SwitchState) (src dest : String) (inPort now : Int) :
    (processFrame s src dest inPort now).2.framesProcessed = s.framesProcessed + 1
    ∧ (processFrame s src dest inPort now).2.learningEvents =
        (if learnOutcome s.macTable src inPort = LearnOutcome.New
          then s.learningEvents + 1 else s.learningEvents) := by
  refine ⟨processFrame_framesProcessed _ _ _ _ _, ?_⟩
  rw [processFrame_learningEvents]
  unfold learnOutcome
  cases hf : findEntry s.macTable src with
  | none => simp
  | some e =>
    by_cases hp : e.port = inPort
    · simp [hp]
    · simp [hp]

/-- C7: the forwarding decision path never destroys an entry: a call
changes at most the entry keyed by the frame source, every other key reads
the same before and after, and every entry present before the call is
still present afterwards. -/
theorem C7_frame_effect (s : SwitchState) (src dest : String) (inPort now : Int) :
    (∀ mac : String, mac ≠ src →
      findEntry (processFrame s src dest inPort now).2.macTable mac
        = findEntry s.macTable mac)
    ∧ (∀ (mac : String) (e : MACTableEntry),
        findEntry s.macTable mac = some e →
        ∃ e₂ : MACTableEntry,
          findEntry (processFrame s src dest inPort now).2.macTable mac = some e₂) := by
  constructor
  · intro mac hm
    rw [processFrame_table]
    exact learn_findEntry_ne _ _ _ _ _ hm
  · intro mac e he
    rw [processFrame_table]
    by_cases hm : mac = src
    · subst hm
      exact ⟨⟨inPort, now⟩, learn_findEntry_self _ _ _ _⟩
    · refine ⟨e, ?_⟩
      rw [learn_findEntry_ne _ _ _ _ _ hm]
      exact he

/-- C8 counterexample: the two C++ calls processFrame(AA, BB, 1) then
cleanupTable() carry no time arguments, and their outcome depends on the
internal steady_clock reads (modelled by the explicit now arguments): with
the cleanup clock read 6 seconds after the learn the entry is evicted,
with it read 3 seconds after the entry survives, so identical call
sequences do not reproduce identical tables. -/
theorem C8_counterexample :
    findEntry (cleanupTable (processFrame (initSwitch 8 5) "AA" "BB" 1 0).2 6).macTable
        "AA" = none
    ∧ findEntry (cleanupTable (processFrame (initSwitch 8 5) "AA" "BB" 1 0).2 3).macTable
        "AA" = some ⟨1, 0⟩ := by
  constructor
  · decide
  · decide

/-- C8 amended: the internal clock read influences only the stored
timestamps (and hence later aging): the decision and every statistics
counter of a single processFrame call are the same for any two values of
the internal clock read. -/
theorem C8_clock_oblivious_decision (s : SwitchState) (src dest : String)
    (inPort now now₂ : Int) :
    (processFrame s src dest inPort now).1 = (processFrame s src dest inPort now₂).1
    ∧ (processFrame s src dest inPort now).2.framesProcessed
        = (processFrame s src dest inPort now₂).2.framesProcessed
    ∧ (processFrame s src dest inPort now).2.learningEvents
        = (processFrame s src dest inPort now₂).2.learningEvents
    ∧ (processFrame s src dest inPort now).2.forwardingEvents
        = (processFrame s src dest inPort now₂).2.forwardingEvents
    ∧ (processFrame s src dest inPort now).2.floodingEvents
        = (processFrame s src dest inPort now₂).2.floodingEvents := by
  by_cases hb : dest = BROADCAST
  · simp [processFrame, forwardStep, learnStep, hb]
  · have hq := learn_lookupPort_time s.macTable src inPort now now₂ dest
    unfold lookupPort at hq
    cases h₁ : findEntry (learn s.macTable src inPort now) dest with
    | none =>
      cases h₂ : findEntry (learn s.macTable src inPort now₂) dest with
      | none => simp [processFrame, forwardStep, learnStep, hb, h₁, h₂]
      | some e₂ =>
        rw [h₁, h₂] at hq
        simp at hq
    | some e₁ =>
      cases h₂ : findEntry (learn s.macTable src inPort now₂) dest with
      | none =>
        rw [h₁, h₂] at hq
        simp at hq
      | some e₂ =>
        rw [h₁, h₂] at hq
        have hq₂ : e₁.port = e₂.port := by simpa using hq
        by_cases hp : e₁.port = inPort
        · have hp₂ : e₂.port = inPort := hq₂.symm.trans hp
          simp [processFrame, forwardStep, learnStep, hb, h₁, h₂, hp, hp₂]
        · have hp₂ : ¬ e₂.port = inPort := fun hh => hp (hq₂.trans hh)
          simp [processFrame, forwardStep, learnStep, hb, h₁, h₂, hp, hp₂, hq₂]

/-- C9 counterexample: the lowercase all-ones address is not treated as
broadcast and storage is not canonicalized: once the lowercase string has
been learned as a source at port 2, a frame addressed to it from port 1 is
delivered to port 2 instead of flooded, and looking up the uppercase form
of the stored lowercase address finds nothing. -/
theorem C9_counterexample :
    (processFrame (processFrame (initSwitch 8 300) "ff:ff:ff:ff:ff:ff" "AA" 2 0).2
        "BB" "ff:ff:ff:ff:ff:ff" 1 1).1 = Decision.Deliver 2
    ∧ lookupPort (processFrame (initSwitch 8 300) "ff:ff:ff:ff:ff:ff" "AA" 2 0).2.macTable
        "FF:FF:FF:FF:FF:FF" = none := by
  constructor
  · decide
  · decide

/-- C9 amended: address handling is exact and case-sensitive: only the
literal uppercase string FF:FF:FF:FF:FF:FF is treated as broadcast, a
lowercase all-ones destination follows the ordinary unicast lookup
(flooding exactly when it is absent), and learning an address never
touches the entry of any textually different address, including one
differing only in hex-digit case. -/
theorem C9_case_sensitive (s : SwitchState) (src : String) (inPort now : Int) :
    ((processFrame s src "ff:ff:ff:ff:ff:ff" inPort now).1 = Decision.Flood inPort ↔
      findEntry (learn s.macTable src inPort now) "ff:ff:ff:ff:ff:ff" = none)
    ∧ (∀ a b : String, a ≠ b →
        findEntry (learn s.macTable a inPort now) b = findEntry s.macTable b) := by
  constructor
  · have hb : ("ff:ff:ff:ff:ff:ff" : String) ≠ BROADCAST := by decide
    cases hf : findEntry (learn s.macTable src inPort now) "ff:ff:ff:ff:ff:ff" with
    | none => simp [processFrame, forwardStep, learnStep, hb, hf]
    | some e =>
      by_cases hp : e.port = inPort
      · simp [processFrame, forwardStep, learnStep, hb, hf, hp]
      · simp [processFrame, forwardStep, learnStep, hb, hf, hp]
  · intro a b hab
    exact learn_findEntry_ne _ _ _ _ _ (fun hh => hab hh.symm)

/-- C10: the Frame overload is behaviorally identical to the string
overload: it forwards the frame source and destination and ignores
etherType and payload entirely. -/
theorem C10_overloads_equiv :
    (∀ (s : SwitchState) (f : Frame) (inPort now : Int),
      processFrameF s f inPort now = processFrame s f.sourceMAC f.destMAC inPort now)
    ∧ (∀ (s : SwitchState) (src dest type₁ data₁ type₂ data₂ : String) (inPort now : Int),
      processFrameF s ⟨src, dest, type₁, data₁⟩ inPort now
        = processFrameF s ⟨src, dest, type₂, data₂⟩ inPort now) :=
  ⟨fun _ _ _ _ => rfl, fun _ _ _ _ _ _ _ _ _ => rfl⟩

end SwitchSim
